import Mathlib

/-!
# go-server-rest-api: a shallow embedding of the two relay handlers

The repository is an HTTP relay with two POST-only routes:

* `/upload-file` (`uploadFileHandler`, `src/main.go`) stores an uploaded file in an
  S3-compatible bucket through `UploadToIBMCOS` (`src/cos.go`);
* `/save-json` (`saveJSONHandler`, `src/main.go`) forwards the request body to a document
  database through `SaveJSONToCloudant` (`src/cloudant.go`).

Conventions of the embedding.

* Go `string` and `[]byte` values are both modelled by `String`; the conversions
  `string(b)` and `[]byte(s)` are the identity and a `nil` byte slice is `""`.
* A Go `error` is modelled by its message; `nil` is `none`.
* Calls that leave the process (the multipart parser reading the request, the reads of the
  request body, the minio client, the outbound HTTP client) are answered by an explicit
  `World` / `Request` value and are recorded, in program order, in a list of `Event`s.
* `filepath` is the Unix flavour: the only separator is `/` and volume names are empty.
-/

namespace GoServer

/-! ## `path/filepath` -/

/-- The test `os.IsPathSeparator` on Unix. -/
def isPathSeparator (c : Char) : Bool := c == '/'

/-- The loop `for len(path) > 0 && os.IsPathSeparator(path[len(path)-1])` of
`filepath.Base`: drops every trailing separator. -/
def stripTrailingSeparators (path : List Char) : List Char :=
  (path.reverse.dropWhile isPathSeparator).reverse

/-- The scan `for i >= 0 && !os.IsPathSeparator(path[i]) { i-- }` of `filepath.Base`
followed by `path = path[i+1:]`: the characters after the last separator. -/
def lastElement (path : List Char) : List Char :=
  (path.reverse.takeWhile (fun c => !isPathSeparator c)).reverse

/-- Go's `filepath.Base` (Unix): the last element of the path, `"."` for the empty path
and `"/"` for a path made of separators only. -/
def Base (path : String) : String :=
  if path = "" then "."
  else
    let last := lastElement (stripTrailingSeparators path.data)
    if last = [] then "/" else String.mk last

/-- The loop of Go's `filepath.Ext`, run over the reversed path: walking back from the end,
stop with no extension at a separator, and return the suffix starting at the first dot
met. `acc` holds the characters already walked over, in path order. -/
def extLoop : List Char → List Char → List Char
  | [], _ => []
  | c :: rest, acc =>
    if isPathSeparator c then []
    else if c == '.' then c :: acc
    else extLoop rest (c :: acc)

/-- Go's `filepath.Ext`: the suffix beginning at the final dot of the last element of the
path, empty if there is no dot. -/
def Ext (path : String) : String := String.mk (extLoop path.data.reverse [])

/-! ## `strings` -/

/-- Go's `strings.TrimRight(s, "/")`: removes every trailing `/`. -/
def trimRightSlash (s : String) : String :=
  String.mk (s.data.reverse.dropWhile (fun c => c == '/')).reverse

/-- Go's `strings.Cut(s, sep)` for a one-character separator: the text before the first
`sep` and the text after it; when `sep` does not occur, all of `s` and `""`. -/
def cut (sep : Char) (s : List Char) : List Char × List Char :=
  ((s.span (fun c => c != sep)).1, (s.span (fun c => c != sep)).2.drop 1)

/-- Go's `strings.HasPrefix`. -/
def startsWith (s pre : List Char) : Bool := pre.isPrefixOf s

/-! ## `net/url`

`url.Parse` is transcribed down to the places where it hands over to `parseAuthority`,
`setPath` and `setFragment`. Those three, `strconv.Quote` (used in the text of a
`*url.Error`) and `(*URL).String` are library code that no decision of this repository
depends on beyond their result, and are taken as parameters. -/

/-- The fields of Go's `url.URL`. `User` is the rendered user information, if any. -/
structure URL where
  Scheme : String := ""
  Opaque : String := ""
  User : Option String := none
  Host : String := ""
  Path : String := ""
  RawPath : String := ""
  OmitHost : Bool := false
  ForceQuery : Bool := false
  RawQuery : String := ""
  Fragment : String := ""
  RawFragment : String := ""
  deriving DecidableEq, Repr

/-- The library functions below `url.Parse` and around `url.URL` that are parameters of the
embedding. -/
structure NetURL where
  /-- The function `parseAuthority`: the user information and the host of an authority. -/
  parseAuthority : String → Except String (Option String × String)
  /-- The method `setPath`: the decoded `Path` and the `RawPath` of a raw path. -/
  setPath : String → Except String (String × String)
  /-- The method `setFragment`: the decoded `Fragment` and the `RawFragment`. -/
  setFragment : String → Except String (String × String)
  /-- The function `strconv.Quote`. -/
  quote : String → String
  /-- The method `(*URL).String`. -/
  urlString : URL → String

/-- The test `stringContainsCTLByte` of `net/url`: a byte below `' '` or equal to `0x7f`. -/
def stringContainsCTLByte (s : List Char) : Bool :=
  s.any (fun c => decide (c.toNat < 32) || decide (c.toNat = 127))

/-- The loop of `getScheme`. `first` says that the index is `0`, `acc` is `rawURL[:i]` and
the last argument is `rawURL[i:]`. The result is `(scheme, path)` or the error. -/
def getSchemeLoop (rawURL : List Char) :
    Bool → List Char → List Char → Except String (List Char × List Char)
  | _, _, [] => .ok ([], rawURL)
  | first, acc, c :: rest =>
    if (decide ('a' ≤ c) && decide (c ≤ 'z')) || (decide ('A' ≤ c) && decide (c ≤ 'Z')) then
      getSchemeLoop rawURL false (acc ++ [c]) rest
    else if (decide ('0' ≤ c) && decide (c ≤ '9')) || c == '+' || c == '-' || c == '.' then
      if first then .ok ([], rawURL) else getSchemeLoop rawURL false (acc ++ [c]) rest
    else if c == ':' then
      if first then .error "missing protocol scheme" else .ok (acc, rest)
    else .ok ([], rawURL)

/-- The function `getScheme` of `net/url`: a leading run of letters, digits, `+`, `-` and `.`
that starts with a letter and is followed by `:` is the scheme. -/
def getScheme (rawURL : List Char) : Except String (List Char × List Char) :=
  getSchemeLoop rawURL true [] rawURL

/-- The tail of `parse`, from the test for an authority on. -/
def parseAuthorityAndPath (lib : NetURL) (viaRequest : Bool) (url : URL) (rest : List Char) :
    Except String URL :=
  if (url.Scheme != "" || (!viaRequest && !startsWith rest "///".data))
      && startsWith rest "//".data then
    let authority := (cut '/' (rest.drop 2)).1
    let rest := (rest.drop 2).drop authority.length
    match lib.parseAuthority (String.mk authority) with
    | .error e => .error e
    | .ok (user, host) =>
      match lib.setPath (String.mk rest) with
      | .error e => .error e
      | .ok (path, rawPath) =>
        .ok { url with User := user, Host := host, Path := path, RawPath := rawPath }
  else
    let url := if url.Scheme != "" && startsWith rest "/".data then
      { url with OmitHost := true } else url
    match lib.setPath (String.mk rest) with
    | .error e => .error e
    | .ok (path, rawPath) => .ok { url with Path := path, RawPath := rawPath }

/-- The function `parse` of `net/url`. -/
def parse (lib : NetURL) (rawURL : List Char) (viaRequest : Bool) : Except String URL :=
  if stringContainsCTLByte rawURL then .error "net/url: invalid control character in URL"
  else if rawURL = [] && viaRequest then .error "empty url"
  else if rawURL = "*".data then .ok { Path := "*" }
  else
    match getScheme rawURL with
    | .error e => .error e
    | .ok (scheme, rest) =>
      let url : URL := { Scheme := String.mk (scheme.map Char.toLower) }
      let qmarks := rest.count '?'
      let forceQuery := rest.getLast? == some '?' && qmarks == 1
      let url : URL :=
        if forceQuery then { url with ForceQuery := true }
        else { url with RawQuery := String.mk (cut '?' rest).2 }
      let rest := if forceQuery then rest.dropLast else (cut '?' rest).1
      if !startsWith rest "/".data then
        if url.Scheme != "" then .ok { url with Opaque := String.mk rest }
        else if viaRequest then .error "invalid URI for request"
        else if (cut '/' rest).1.contains ':' then
          .error "first path segment in URL cannot contain colon"
        else parseAuthorityAndPath lib viaRequest url rest
      else parseAuthorityAndPath lib viaRequest url rest

/-- Go's `url.Parse`: the fragment is cut off at the first `#`, the rest goes through
`parse`, and an error is wrapped in a `*url.Error` whose text is
`parse <quoted url>: <reason>`. -/
def Parse (lib : NetURL) (rawURL : String) : Except String URL :=
  let u := (cut '#' rawURL.data).1
  let frag := (cut '#' rawURL.data).2
  match parse lib u false with
  | .error e => .error ("parse " ++ lib.quote (String.mk u) ++ ": " ++ e)
  | .ok url =>
    if frag = [] then .ok url
    else
      match lib.setFragment (String.mk frag) with
      | .error e => .error ("parse " ++ lib.quote rawURL ++ ": " ++ e)
      | .ok (f, rf) => .ok { url with Fragment := f, RawFragment := rf }

/-- A `NetURL` used in the examples: every authority, path and fragment is accepted as
written. -/
def plainURL : NetURL where
  parseAuthority := fun a => .ok (none, a)
  setPath := fun p => .ok (p, "")
  setFragment := fun f => .ok (f, "")
  quote := fun s => "\"" ++ s ++ "\""
  urlString := fun u => u.Scheme ++ "://" ++ u.Host ++ u.Path

/-! ## `net/http`: the response writer -/

/-- What a handler has sent through its `http.ResponseWriter`: the header map, whether the
status line is out, the status code and the body bytes written so far. -/
structure ResponseWriter where
  header : List (String × String) := []
  wroteHeader : Bool := false
  status : Int := 0
  body : String := ""
  deriving DecidableEq, Repr

/-- The call `w.Header().Del(key)`. -/
def ResponseWriter.Del (w : ResponseWriter) (key : String) : ResponseWriter :=
  { w with header := w.header.filter (fun kv => kv.1 != key) }

/-- The call `w.Header().Set(key, value)`. -/
def ResponseWriter.Set (w : ResponseWriter) (key value : String) : ResponseWriter :=
  { w with header := w.header.filter (fun kv => kv.1 != key) ++ [(key, value)] }

/-- The method `WriteHeader`: the first call fixes the status code of the response. -/
def ResponseWriter.WriteHeader (w : ResponseWriter) (code : Int) : ResponseWriter :=
  if w.wroteHeader then w else { w with wroteHeader := true, status := code }

/-- The method `Write`: sends `WriteHeader(http.StatusOK)` first if no status is out yet,
then appends the bytes to the body. -/
def ResponseWriter.Write (w : ResponseWriter) (b : String) : ResponseWriter :=
  { w.WriteHeader 200 with body := (w.WriteHeader 200).body ++ b }

/-- The response writer a handler is called with: nothing sent yet. -/
def freshWriter : ResponseWriter := {}

/-- Go's `http.Error`: a plain-text reply with the given status code whose body is the
message followed by a newline (`fmt.Fprintln`). -/
def Error (w : ResponseWriter) (error : String) (code : Int) : ResponseWriter :=
  ((((w.Del "Content-Length").Set "Content-Type" "text/plain; charset=utf-8").Set
    "X-Content-Type-Options" "nosniff").WriteHeader code).Write (error ++ "\n")

/-! ## The outside world -/

/-- The type `minio.MakeBucketOptions`; the zero value is the default. -/
structure MakeBucketOptions where
  Region : String := ""
  ObjectLocking : Bool := false
  deriving DecidableEq, Repr

/-- The one field of `minio.PutObjectOptions` that the program sets. -/
structure PutObjectOptions where
  ContentType : String := ""
  deriving DecidableEq, Repr

/-- An outbound HTTP request as built by `SaveJSONToCloudant`. -/
structure OutRequest where
  method : String
  url : String
  header : List (String × String)
  body : String
  deriving DecidableEq, Repr

/-- An `http.Response`: the status code and the outcome of `io.ReadAll(resp.Body)`. -/
structure HttpResponse where
  StatusCode : Int
  Body : Except String String

/-- The calls that leave the handler, in the order in which they are made. -/
inductive Event where
  /-- The call `r.ParseMultipartForm(maxMemory)`. -/
  | parseMultipartForm (maxMemory : Nat)
  /-- The call `r.FormFile(key)`. -/
  | formFile (key : String)
  /-- The call `io.ReadAll(file)` on the uploaded file. -/
  | readFile
  /-- The call `io.ReadAll(r.Body)`. -/
  | readBody
  /-- The call `http.DefaultClient.Do(req)`. -/
  | httpDo (req : OutRequest)
  /-- The call `minio.New(endpoint, opts)` with static V4 credentials. -/
  | minioNew (endpoint accessKey secretKey : String) (secure : Bool)
  /-- The call `client.BucketExists(ctx, bucketName)`. -/
  | bucketExists (bucketName : String)
  /-- The call `client.MakeBucket(ctx, bucketName, opts)`. -/
  | makeBucket (bucketName : String) (opts : MakeBucketOptions)
  /-- The call `client.PutObject(ctx, bucketName, objectName, reader, size, opts)`. -/
  | putObject (bucketName objectName data : String) (size : Nat) (opts : PutObjectOptions)
  deriving DecidableEq, Repr

/-- Is the event a `MakeBucket` call? -/
def Event.isMakeBucket : Event → Bool
  | .makeBucket _ _ => true
  | _ => false

/-- Is the event a `PutObject` call? -/
def Event.isPutObject : Event → Bool
  | .putObject _ _ _ _ _ => true
  | _ => false

/-- The key of a `PutObject` call. -/
def Event.key? : Event → Option String
  | .putObject _ objectName _ _ _ => some objectName
  | _ => none

/-- The keys written to a bucket in a trace, in order. -/
def storedKeys (trace : List Event) : List String := trace.filterMap Event.key?

/-- The answers of the libraries and remote services the program calls. Each field is the
result of the call with the given arguments; an error is its message. -/
structure World where
  /-- The parts of `net/url` below `url.Parse`. -/
  url : NetURL
  /-- The function `mime.TypeByExtension`. -/
  typeByExtension : String → String
  /-- The error, if any, of `minio.New(endpoint, opts)`. -/
  minioNew : String → String → String → Bool → Option String
  /-- The result of `client.BucketExists`. -/
  bucketExists : String → Except String Bool
  /-- The error, if any, of `client.MakeBucket`. -/
  makeBucket : String → MakeBucketOptions → Option String
  /-- The error, if any, of `client.PutObject`. -/
  putObject : String → String → String → Nat → PutObjectOptions → Option String
  /-- The error, if any, of `http.NewRequestWithContext(ctx, method, url, body)`. -/
  newRequest : String → String → String → Option String
  /-- The function `base64.StdEncoding.EncodeToString`. -/
  base64 : String → String
  /-- The result of `http.DefaultClient.Do(req)`. -/
  httpDo : OutRequest → Except String HttpResponse

/-- The type `multipart.FileHeader`, reduced to the field the program reads. -/
structure FileHeader where
  Filename : String
  deriving DecidableEq, Repr

/-- An inbound `http.Request` as far as the handlers look at it. -/
structure Request where
  Method : String
  /-- The error, if any, of `r.ParseMultipartForm(maxMemory)`. -/
  ParseMultipartForm : Nat → Option String
  /-- The map `r.Form` once the form is parsed. -/
  Form : String → List String
  /-- The result of `r.FormFile(key)`: the outcome of `io.ReadAll` on the file, and its
  header. -/
  FormFile : String → Except String (Except String String × FileHeader)
  /-- The outcome of `io.ReadAll(r.Body)`. -/
  Body : Except String String

/-- The method `r.FormValue(key)` on a parsed form: the first value for the key, or `""`. -/
def Request.FormValue (r : Request) (key : String) : String :=
  match r.Form key with
  | [] => ""
  | v :: _ => v

/-- The package-level configuration variables of `src/main.go`, read from the environment
when the process starts. -/
structure Config where
  cosEndpoint : String
  cosAccessKey : String
  cosSecretKey : String
  cosBucket : String
  cosUseSSL : Bool
  cloudantURL : String
  cloudantDB : String
  cloudantUser : String
  cloudantPassword : String
  deriving DecidableEq, Repr

/-! ## `src/cos.go` -/

/-- What a call of `UploadToIBMCOS` returns and the calls it made. -/
structure UploadResult where
  err : Option String
  trace : List Event
  deriving DecidableEq, Repr

/-- The endpoint normalisation at the head of `UploadToIBMCOS` (the value of `cleaned`):
when `url.Parse` accepts the endpoint and finds a scheme, the host of the parsed URL,
otherwise the endpoint as given. -/
def cleanedEndpoint (lib : NetURL) (endpoint : String) : String :=
  match Parse lib endpoint with
  | .ok u => if u.Scheme != "" then u.Host else endpoint
  | .error _ => endpoint

/-- The content type chosen by `UploadToIBMCOS` for an object name: the type registered for
its extension, `application/octet-stream` when there is no extension or no such type. -/
def contentTypeOf (W : World) (objectName : String) : String :=
  if Ext objectName != "" && W.typeByExtension (Ext objectName) != "" then
    W.typeByExtension (Ext objectName)
  else "application/octet-stream"

/-- The function `UploadToIBMCOS` of `src/cos.go`. -/
def UploadToIBMCOS (W : World) (endpoint accessKey secretKey bucketName objectName data : String)
    (useSSL : Bool) : UploadResult :=
  let objectName := Base objectName
  -- normalize endpoint: minio.New expects host without scheme
  let cleaned := cleanedEndpoint W.url endpoint
  let t1 := [Event.minioNew cleaned accessKey secretKey useSSL]
  match W.minioNew cleaned accessKey secretKey useSSL with
  | some e => ⟨some ("create minio client: " ++ e), t1⟩
  | none =>
    -- ensure bucket exists
    let t2 := t1 ++ [Event.bucketExists bucketName]
    match W.bucketExists bucketName with
    | .error e => ⟨some ("check bucket exists: " ++ e), t2⟩
    | .ok found =>
      let made : Option String × List Event :=
        if !found then
          (W.makeBucket bucketName {}, t2 ++ [Event.makeBucket bucketName {}])
        else (none, t2)
      match made with
      | (some e, t3) => ⟨some ("create bucket: " ++ e), t3⟩
      | (none, t3) =>
        -- determine content-type
        let opts : PutObjectOptions := { ContentType := contentTypeOf W objectName }
        let t4 := t3 ++ [Event.putObject bucketName objectName data data.utf8ByteSize opts]
        match W.putObject bucketName objectName data data.utf8ByteSize opts with
        | some e => ⟨some ("put object: " ++ e), t4⟩
        | none => ⟨none, t4⟩

/-! ## `src/cloudant.go` -/

/-- What a call of `SaveJSONToCloudant` returns (body, status code, error) and the calls it
made. -/
structure SaveResult where
  body : String
  status : Int
  err : Option String
  trace : List Event
  deriving DecidableEq, Repr

/-- The function `SaveJSONToCloudant` of `src/cloudant.go`. -/
def SaveJSONToCloudant (W : World) (cloudantURL db username password jsonBytes : String) :
    SaveResult :=
  -- Build request URL
  match Parse W.url (trimRightSlash cloudantURL ++ "/" ++ db) with
  | .error e => ⟨"", 0, some ("invalid cloudant url: " ++ e), []⟩
  | .ok u =>
    match W.newRequest "POST" (W.url.urlString u) jsonBytes with
    | some e => ⟨"", 0, some ("create request: " ++ e), []⟩
    | none =>
      let header := [("Content-Type", "application/json")]
      let header :=
        if username != "" then
          header ++ [("Authorization", "Basic " ++ W.base64 (username ++ ":" ++ password))]
        else header
      let req : OutRequest := ⟨"POST", W.url.urlString u, header, jsonBytes⟩
      match W.httpDo req with
      | .error e => ⟨"", 0, some ("request failed: " ++ e), [Event.httpDo req]⟩
      | .ok resp =>
        match resp.Body with
        | .error e => ⟨"", resp.StatusCode, some ("read response: " ++ e), [Event.httpDo req]⟩
        | .ok body =>
          if resp.StatusCode ≥ 300 then
            ⟨body, resp.StatusCode,
              some ("cloudant returned status " ++ toString resp.StatusCode), [Event.httpDo req]⟩
          else ⟨body, resp.StatusCode, none, [Event.httpDo req]⟩

/-! ## `src/main.go` -/

/-- What a handler call leaves behind: the response and the calls it made. -/
structure Served where
  w : ResponseWriter
  trace : List Event
  deriving DecidableEq, Repr

/-- The handler `uploadFileHandler` of `src/main.go`. -/
def uploadFileHandler (cfg : Config) (W : World) (w : ResponseWriter) (r : Request) : Served :=
  if r.Method != "POST" then ⟨Error w "method not allowed" 405, []⟩
  else if cfg.cosEndpoint == "" || cfg.cosAccessKey == "" || cfg.cosSecretKey == ""
      || cfg.cosBucket == "" then
    ⟨Error w "COS configuration not set" 500, []⟩
  else
    let t1 := [Event.parseMultipartForm (32 <<< 20)]
    match r.ParseMultipartForm (32 <<< 20) with
    | some e => ⟨Error w ("parse multipart: " ++ e) 400, t1⟩
    | none =>
      let t2 := t1 ++ [Event.formFile "file"]
      match r.FormFile "file" with
      | .error e => ⟨Error w ("read file: " ++ e) 400, t2⟩
      | .ok (file, header) =>
        let objectName := r.FormValue "objectName"
        let objectName := if objectName == "" then Base header.Filename else objectName
        let t3 := t2 ++ [Event.readFile]
        match file with
        | .error e => ⟨Error w ("read file data: " ++ e) 500, t3⟩
        | .ok data =>
          let up := UploadToIBMCOS W cfg.cosEndpoint cfg.cosAccessKey cfg.cosSecretKey
            cfg.cosBucket objectName data cfg.cosUseSSL
          match up.err with
          | some e => ⟨Error w ("upload failed: " ++ e) 500, t3 ++ up.trace⟩
          | none =>
            ⟨(w.WriteHeader 201).Write ("\x7b\"object\":\"" ++ objectName ++ "\"\x7d" ++ "\n"),
              t3 ++ up.trace⟩

/-- The handler `saveJSONHandler` of `src/main.go`. -/
def saveJSONHandler (cfg : Config) (W : World) (w : ResponseWriter) (r : Request) : Served :=
  if r.Method != "POST" then ⟨Error w "method not allowed" 405, []⟩
  else if cfg.cloudantURL == "" || cfg.cloudantDB == "" then
    ⟨Error w "Cloudant configuration not set" 500, []⟩
  else
    let t1 := [Event.readBody]
    match r.Body with
    | .error e => ⟨Error w ("read body: " ++ e) 400, t1⟩
    | .ok body =>
      let saved := SaveJSONToCloudant W cfg.cloudantURL cfg.cloudantDB cfg.cloudantUser
        cfg.cloudantPassword body
      match saved.err with
      | some e => ⟨Error w ("cloudant save failed: " ++ e) 500, t1 ++ saved.trace⟩
      | none => ⟨(w.WriteHeader saved.status).Write saved.body, t1 ++ saved.trace⟩

/-! ## Sample values -/

/-- A world in which every call succeeds: the bucket exists and the document store answers
`201` with a fixed body. -/
def sampleWorld : World where
  url := plainURL
  typeByExtension := fun ext => if ext == ".txt" then "text/plain; charset=utf-8" else ""
  minioNew := fun _ _ _ _ => none
  bucketExists := fun _ => .ok true
  makeBucket := fun _ _ => none
  putObject := fun _ _ _ _ _ => none
  newRequest := fun _ _ _ => none
  base64 := fun s => s
  httpDo := fun _ => .ok ⟨201, .ok "\x7b\"id\":\"doc1\",\"ok\":true\x7d"⟩

/-- The sample world with a bucket check that fails. -/
def deniedWorld : World := { sampleWorld with bucketExists := fun _ => .error "access denied" }

/-- The sample world with no bucket yet; creating one succeeds. -/
def absentWorld : World := { sampleWorld with bucketExists := fun _ => .ok false }

/-- The sample world with no bucket yet; creating one fails. -/
def noCreateWorld : World :=
  { sampleWorld with bucketExists := fun _ => .ok false, makeBucket := fun _ _ => some "quota" }

/-- The sample world with a document store that answers `409` to every request. -/
def conflictWorld : World :=
  { sampleWorld with httpDo := fun _ => .ok ⟨409, .ok "\x7b\"error\":\"conflict\"\x7d"⟩ }

/-- A complete configuration. -/
def sampleConfig : Config where
  cosEndpoint := "https://s3.example.com"
  cosAccessKey := "ak"
  cosSecretKey := "sk"
  cosBucket := "bucket"
  cosUseSSL := true
  cloudantURL := "https://account.cloudant.com/"
  cloudantDB := "db"
  cloudantUser := "user"
  cloudantPassword := "pw"

/-- A multipart POST carrying the file `filename` with contents `data` and the form value
`objectName` (absent when empty). -/
def uploadRequest (filename data objectName : String) : Request where
  Method := "POST"
  ParseMultipartForm := fun _ => none
  Form := fun key => if key == "objectName" && objectName != "" then [objectName] else []
  FormFile := fun key =>
    if key == "file" then .ok (.ok data, ⟨filename⟩) else .error "http: no such file"
  Body := .ok ""

/-- A POST whose body is `body`. -/
def jsonRequest (body : String) : Request where
  Method := "POST"
  ParseMultipartForm := fun _ => some "request Content-Type isn't multipart/form-data"
  Form := fun _ => []
  FormFile := fun _ => .error "request Content-Type isn't multipart/form-data"
  Body := .ok body

example : Base "a.txt" = "a.txt" := by decide
example : Base "dir/x.txt" = "x.txt" := by decide
example : Base "/" = "/" := by decide
example : Base "" = "." := by decide
example : Base "a/b/" = "b" := by decide
example : Ext "a/b.tar.gz" = ".gz" := by decide
example : Ext "a.b/c" = "" := by decide

example : (Parse plainURL "https://s3.example.com:9000").toOption.map (fun u => (u.Scheme, u.Host)) =
    some ("https", "s3.example.com:9000") := by decide
example : (Parse plainURL "s3.example.com:9000").toOption.map (fun u => (u.Scheme, u.Host, u.Opaque)) =
    some ("s3.example.com", "", "9000") := by decide
example : (Parse plainURL "s3.example.com").toOption.map (fun u => (u.Scheme, u.Host, u.Path)) =
    some ("", "", "s3.example.com") := by decide
example : (Parse plainURL "10.0.0.1:9000").toOption = none := by decide

example : uploadFileHandler sampleConfig sampleWorld freshWriter (uploadRequest "a.txt" "hello" "") =
    ⟨⟨[], true, 201, "\x7b\"object\":\"a.txt\"\x7d\n"⟩,
     [.parseMultipartForm 33554432, .formFile "file", .readFile,
      .minioNew "s3.example.com" "ak" "sk" true, .bucketExists "bucket",
      .putObject "bucket" "a.txt" "hello" 5 ⟨"text/plain; charset=utf-8"⟩]⟩ := by decide
example : saveJSONHandler sampleConfig sampleWorld freshWriter (jsonRequest "\x7b\"x\":1\x7d") =
    ⟨⟨[], true, 201, "\x7b\"id\":\"doc1\",\"ok\":true\x7d"⟩,
     [.readBody, .httpDo ⟨"POST", "https://account.cloudant.com/db",
        [("Content-Type", "application/json"), ("Authorization", "Basic user:pw")],
        "\x7b\"x\":1\x7d"⟩]⟩ := by decide


/-! ## Lemmas on `filepath.Base` -/

theorem dropWhile_of_none {α : Type} (p : α → Bool) (l : List α) (h : ∀ x ∈ l, p x = false) :
    l.dropWhile p = l := by
  cases l with
  | nil => rfl
  | cons a t => simp [List.dropWhile, h a (List.mem_cons_self a t)]

theorem takeWhile_not_of_none {α : Type} (p : α → Bool) (l : List α)
    (h : ∀ x ∈ l, p x = false) : l.takeWhile (fun c => !p c) = l := by
  rw [List.takeWhile_eq_self_iff]
  intro x hx
  simp [h x hx]

theorem all_of_takeWhile_dropWhile_nil {α : Type} (p : α → Bool) (l : List α)
    (h : (l.dropWhile p).takeWhile (fun c => !p c) = []) : ∀ x ∈ l, p x = true := by
  induction l with
  | nil => simp
  | cons a t ih =>
    cases hpa : p a with
    | true =>
      rw [List.dropWhile_cons_of_pos hpa] at h
      intro x hx
      rcases List.mem_cons.1 hx with rfl | hx
      · exact hpa
      · exact ih h x hx
    | false =>
      rw [List.dropWhile_cons_of_neg (by simp [hpa])] at h
      simp [List.takeWhile, hpa] at h

theorem lastElement_no_sep (p : List Char) :
    ∀ c ∈ lastElement p, isPathSeparator c = false := by
  intro c hc
  unfold lastElement at hc
  rw [List.mem_reverse] at hc
  have := List.mem_takeWhile_imp hc
  simpa using this

theorem lastElement_strip_eq_nil (p : List Char)
    (h : lastElement (stripTrailingSeparators p) = []) : ∀ c ∈ p, c = '/' := by
  unfold lastElement stripTrailingSeparators at h
  rw [List.reverse_reverse, List.reverse_eq_nil_iff] at h
  intro c hc
  have := all_of_takeWhile_dropWhile_nil isPathSeparator p.reverse h c (List.mem_reverse.2 hc)
  simpa [isPathSeparator] using this

theorem lastElement_strip_of_all_sep (p : List Char) (h : ∀ c ∈ p, c = '/') :
    lastElement (stripTrailingSeparators p) = [] := by
  unfold lastElement stripTrailingSeparators
  have : p.reverse.dropWhile isPathSeparator = [] := by
    rw [List.dropWhile_eq_nil_iff]
    intro x hx
    simp [isPathSeparator, h x (List.mem_reverse.1 hx)]
  simp [this]

theorem lastElement_strip_of_no_sep (q : List Char) (h : ∀ c ∈ q, isPathSeparator c = false) :
    lastElement (stripTrailingSeparators q) = q := by
  unfold lastElement stripTrailingSeparators
  have h' : ∀ c ∈ q.reverse, isPathSeparator c = false := fun c hc => h c (List.mem_reverse.1 hc)
  rw [dropWhile_of_none _ _ h', List.reverse_reverse, takeWhile_not_of_none _ _ h',
    List.reverse_reverse]

theorem mk_ne_empty (l : List Char) (h : l ≠ []) : String.mk l ≠ "" := by
  intro he
  exact h (congrArg String.data he)

/-- The base name of a path has a separator in it only when the path is a non-empty run of
separators. -/
theorem Base_no_sep (path : String) (h : path = "" ∨ ∃ c ∈ path.data, c ≠ '/') :
    '/' ∉ (Base path).data := by
  unfold Base
  by_cases h0 : path = ""
  · simp [h0]
  · simp only [h0, if_false]
    by_cases h1 : lastElement (stripTrailingSeparators path.data) = []
    · rcases h with h | ⟨c, hc, hne⟩
      · exact absurd h h0
      · exact absurd (lastElement_strip_eq_nil _ h1 c hc) hne
    · simp only [h1, if_false]
      intro hmem
      have := lastElement_no_sep _ _ hmem
      simp [isPathSeparator] at this

/-- The base name of a non-empty run of separators is the separator. -/
theorem Base_of_all_sep (path : String) (h0 : path ≠ "") (h : ∀ c ∈ path.data, c = '/') :
    Base path = "/" := by
  unfold Base
  simp [h0, lastElement_strip_of_all_sep _ h]

/-- The function `filepath.Base` is idempotent. -/
theorem Base_idem (path : String) : Base (Base path) = Base path := by
  by_cases h0 : path = ""
  · have : Base path = "." := by unfold Base; simp [h0]
    rw [this]; decide
  · by_cases h1 : lastElement (stripTrailingSeparators path.data) = []
    · have : Base path = "/" := by unfold Base; simp [h0, h1]
      rw [this]; decide
    · have hb : Base path = String.mk (lastElement (stripTrailingSeparators path.data)) := by
        unfold Base; simp [h0, h1]
      rw [hb]
      unfold Base
      simp only [mk_ne_empty _ h1, if_false]
      rw [lastElement_strip_of_no_sep _ (lastElement_no_sep _)]
      simp [h1]

/-! ## The shape of a call of `UploadToIBMCOS` -/

/-- The five ways a call of `UploadToIBMCOS` can run, with the calls made in each. -/
theorem UploadToIBMCOS_shape (W : World)
    (endpoint accessKey secretKey bucketName objectName data : String) (useSSL : Bool) :
    (∃ e, W.minioNew (cleanedEndpoint W.url endpoint) accessKey secretKey useSSL = some e ∧
      UploadToIBMCOS W endpoint accessKey secretKey bucketName objectName data useSSL =
        ⟨some ("create minio client: " ++ e),
          [Event.minioNew (cleanedEndpoint W.url endpoint) accessKey secretKey useSSL]⟩) ∨
    (∃ e, W.bucketExists bucketName = .error e ∧
      UploadToIBMCOS W endpoint accessKey secretKey bucketName objectName data useSSL =
        ⟨some ("check bucket exists: " ++ e),
          [Event.minioNew (cleanedEndpoint W.url endpoint) accessKey secretKey useSSL,
            Event.bucketExists bucketName]⟩) ∨
    (∃ e, W.bucketExists bucketName = .ok false ∧ W.makeBucket bucketName {} = some e ∧
      UploadToIBMCOS W endpoint accessKey secretKey bucketName objectName data useSSL =
        ⟨some ("create bucket: " ++ e),
          [Event.minioNew (cleanedEndpoint W.url endpoint) accessKey secretKey useSSL,
            Event.bucketExists bucketName, Event.makeBucket bucketName {}]⟩) ∨
    (W.bucketExists bucketName = .ok false ∧ W.makeBucket bucketName {} = none ∧
      UploadToIBMCOS W endpoint accessKey secretKey bucketName objectName data useSSL =
        ⟨(W.putObject bucketName (Base objectName) data data.utf8ByteSize
            ⟨contentTypeOf W (Base objectName)⟩).map (fun e => "put object: " ++ e),
          [Event.minioNew (cleanedEndpoint W.url endpoint) accessKey secretKey useSSL,
            Event.bucketExists bucketName, Event.makeBucket bucketName {},
            Event.putObject bucketName (Base objectName) data data.utf8ByteSize
              ⟨contentTypeOf W (Base objectName)⟩]⟩) ∨
    (W.bucketExists bucketName = .ok true ∧
      UploadToIBMCOS W endpoint accessKey secretKey bucketName objectName data useSSL =
        ⟨(W.putObject bucketName (Base objectName) data data.utf8ByteSize
            ⟨contentTypeOf W (Base objectName)⟩).map (fun e => "put object: " ++ e),
          [Event.minioNew (cleanedEndpoint W.url endpoint) accessKey secretKey useSSL,
            Event.bucketExists bucketName,
            Event.putObject bucketName (Base objectName) data data.utf8ByteSize
              ⟨contentTypeOf W (Base objectName)⟩]⟩) := by
  unfold UploadToIBMCOS
  simp only []
  cases hnew : W.minioNew (cleanedEndpoint W.url endpoint) accessKey secretKey useSSL with
  | some e => exact Or.inl ⟨e, rfl, rfl⟩
  | none =>
    right
    cases hex : W.bucketExists bucketName with
    | error e => exact Or.inl ⟨e, rfl, rfl⟩
    | ok found =>
      right
      cases found with
      | false =>
        cases hmk : W.makeBucket bucketName {} with
        | some e =>
          refine Or.inl ⟨e, rfl, rfl, ?_⟩
          simp [hmk]
        | none =>
          refine Or.inr (Or.inl ⟨rfl, rfl, ?_⟩)
          simp only [hmk]
          cases hput : W.putObject bucketName (Base objectName) data data.utf8ByteSize
            ⟨contentTypeOf W (Base objectName)⟩ <;> simp [hput]
      | true =>
        refine Or.inr (Or.inr ⟨rfl, ?_⟩)
        cases hput : W.putObject bucketName (Base objectName) data data.utf8ByteSize
          ⟨contentTypeOf W (Base objectName)⟩ <;> simp [hput]

/-- The keys written by a call of `UploadToIBMCOS`: at most the base name of the object
name, and exactly that key when the call returns no error. -/
theorem UploadToIBMCOS_keys (W : World)
    (endpoint accessKey secretKey bucketName objectName data : String) (useSSL : Bool) :
    (∀ k ∈ storedKeys
        (UploadToIBMCOS W endpoint accessKey secretKey bucketName objectName data useSSL).trace,
      k = Base objectName) ∧
    ((UploadToIBMCOS W endpoint accessKey secretKey bucketName objectName data useSSL).err = none →
      storedKeys
        (UploadToIBMCOS W endpoint accessKey secretKey bucketName objectName data useSSL).trace =
        [Base objectName]) := by
  rcases UploadToIBMCOS_shape W endpoint accessKey secretKey bucketName objectName data useSSL
    with ⟨e, -, h⟩ | ⟨e, -, h⟩ | ⟨e, -, -, h⟩ | ⟨-, -, h⟩ | ⟨-, h⟩ <;>
    rw [h] <;> simp [storedKeys, Event.key?]

/-- If a list ends in its only element satisfying `p`, every split of the list at an
element satisfying `p` is the split at the end. -/
theorem split_at_last {α : Type} (p : α → Bool) (l : List α) (x : α)
    (hl : ∀ e ∈ l, p e = false) (pre post : List α) (ev : α)
    (h : l ++ [x] = pre ++ ev :: post) (hev : p ev = true) : pre = l := by
  rcases List.append_eq_append_iff.1 h with ⟨a, ha, hb⟩ | ⟨c, hc, hd⟩
  · cases a with
    | nil => simpa using ha
    | cons a0 as =>
      have := congrArg List.length hb
      simp at this
  · cases c with
    | nil => simpa using hc.symm
    | cons c0 cs =>
      simp at hd
      have hmem : ev ∈ l := by rw [hc, hd.1]; simp
      rw [hl ev hmem] at hev
      exact absurd hev (by simp)

/-! ## The object key (C3, C4, C5) -/

/-- C5 (as amended). For every object name passed to `UploadToIBMCOS`, a key written to the
bucket is `filepath.Base` of the name, and it is written when the call returns no error;
that key contains no `/` when the name is empty or has a character other than `/`, and it
is `/` itself when the name is a non-empty run of `/`. -/
theorem C5_key_is_base_name (W : World)
    (endpoint accessKey secretKey bucketName objectName data : String) (useSSL : Bool) :
    (∀ k ∈ storedKeys
        (UploadToIBMCOS W endpoint accessKey secretKey bucketName objectName data useSSL).trace,
      k = Base objectName) ∧
    ((UploadToIBMCOS W endpoint accessKey secretKey bucketName objectName data useSSL).err = none →
      storedKeys
        (UploadToIBMCOS W endpoint accessKey secretKey bucketName objectName data useSSL).trace =
        [Base objectName]) ∧
    ((objectName = "" ∨ ∃ c ∈ objectName.data, c ≠ '/') → '/' ∉ (Base objectName).data) ∧
    ((objectName ≠ "" ∧ ∀ c ∈ objectName.data, c = '/') → Base objectName = "/") :=
  ⟨(UploadToIBMCOS_keys W endpoint accessKey secretKey bucketName objectName data useSSL).1,
    (UploadToIBMCOS_keys W endpoint accessKey secretKey bucketName objectName data useSSL).2,
    Base_no_sep objectName, fun h => Base_of_all_sep objectName h.1 h.2⟩

/-- C5, witness: the object name `dir/x.txt` in the sample world is stored under the key
`x.txt`, which has no `/`; the name `//` is stored under `/`. -/
theorem C5_key_is_base_name_witness :
    storedKeys (UploadToIBMCOS sampleWorld "https://s3.example.com" "ak" "sk" "bucket"
      "dir/x.txt" "hello" true).trace = [Base "dir/x.txt"] ∧
    '/' ∉ (Base "dir/x.txt").data ∧ Base "//" = "/" :=
  ⟨(C5_key_is_base_name sampleWorld "https://s3.example.com" "ak" "sk" "bucket"
      "dir/x.txt" "hello" true).2.1 (by decide),
    (C5_key_is_base_name sampleWorld "https://s3.example.com" "ak" "sk" "bucket"
      "dir/x.txt" "hello" true).2.2.1 (Or.inr ⟨'d', by decide, by decide⟩),
    (C5_key_is_base_name sampleWorld "https://s3.example.com" "ak" "sk" "bucket"
      "//" "hello" true).2.2.2 ⟨by decide, by decide⟩⟩

/-- C5 as stated fails: the object name `/` is written to the bucket under the key `/`,
which contains a `/`. -/
theorem C5_counterexample :
    ∃ k ∈ storedKeys (UploadToIBMCOS sampleWorld "https://s3.example.com" "ak" "sk" "bucket"
      "/" "hello" true).trace, '/' ∈ k.data :=
  ⟨"/", by decide, by decide⟩

/-- The status and body that `http.Error` leaves in a fresh response writer. -/
theorem Error_fresh (msg : String) (code : Int) :
    (Error freshWriter msg code).status = code ∧
    (Error freshWriter msg code).body = msg ++ "\n" ∧
    (Error freshWriter msg code).header =
      [("Content-Type", "text/plain; charset=utf-8"), ("X-Content-Type-Options", "nosniff")] := by
  refine ⟨rfl, ?_, rfl⟩
  simp [Error, freshWriter, ResponseWriter.Write, ResponseWriter.WriteHeader,
    ResponseWriter.Set, ResponseWriter.Del]

/-- C3 (as amended). For every upload whose request carries a `file` part, a key written
to the bucket is the base name (`filepath.Base`) of the `objectName` form value when that
value is non-empty, and otherwise the base name of the uploaded file's original filename;
when the handler answers 201 that key is the one key written. -/
theorem C3_stored_key_is_base_name (cfg : Config) (W : World) (r : Request)
    (file : Except String String) (header : FileHeader)
    (hfile : r.FormFile "file" = .ok (file, header)) :
    (∀ k ∈ storedKeys (uploadFileHandler cfg W freshWriter r).trace,
      k = if r.FormValue "objectName" ≠ "" then Base (r.FormValue "objectName")
          else Base header.Filename) ∧
    ((uploadFileHandler cfg W freshWriter r).w.status = 201 →
      storedKeys (uploadFileHandler cfg W freshWriter r).trace =
        [if r.FormValue "objectName" ≠ "" then Base (r.FormValue "objectName")
          else Base header.Filename]) := by
  unfold uploadFileHandler
  by_cases hm : r.Method = "POST"
  swap
  · simp [hm, storedKeys, (Error_fresh _ _).1]
  by_cases hc : (cfg.cosEndpoint == "" || cfg.cosAccessKey == "" || cfg.cosSecretKey == ""
      || cfg.cosBucket == "") = true
  · simp only [hm, hc]
    simp [storedKeys, (Error_fresh _ _).1]
  have hne : ("POST" != "POST") = false := by decide
  simp only [hm, hc, hne, Bool.false_eq_true, if_false]
  cases hp : r.ParseMultipartForm (32 <<< 20) with
  | some e => simp [storedKeys, Event.key?, (Error_fresh _ _).1]
  | none =>
    simp only [hfile]
    cases file with
    | error e => simp [storedKeys, Event.key?, (Error_fresh _ _).1]
    | ok data =>
      simp only []
      have hk := UploadToIBMCOS_keys W cfg.cosEndpoint cfg.cosAccessKey cfg.cosSecretKey
        cfg.cosBucket (if (r.FormValue "objectName" == "") = true then Base header.Filename
          else r.FormValue "objectName") data cfg.cosUseSSL
      have hexp : Base (if (r.FormValue "objectName" == "") = true then Base header.Filename
          else r.FormValue "objectName") =
          if r.FormValue "objectName" ≠ "" then Base (r.FormValue "objectName")
          else Base header.Filename := by
        by_cases hv : r.FormValue "objectName" = ""
        · simp [hv, Base_idem]
        · simp [hv]
      rw [hexp] at hk
      cases hup : (UploadToIBMCOS W cfg.cosEndpoint cfg.cosAccessKey cfg.cosSecretKey
        cfg.cosBucket (if (r.FormValue "objectName" == "") = true then Base header.Filename
          else r.FormValue "objectName") data cfg.cosUseSSL).err with
      | some e =>
        simp only []
        refine ⟨?_, fun h => ?_⟩
        swap
        · rw [(Error_fresh _ _).1] at h
          exact absurd h (by decide)
        intro k hkm
        apply hk.1
        simpa [storedKeys, Event.key?] using hkm
      | none =>
        simp only []
        refine ⟨?_, fun _ => ?_⟩
        · intro k hkm
          apply hk.1
          simpa [storedKeys, Event.key?] using hkm
        · have := hk.2 hup
          simpa [storedKeys, Event.key?] using this

/-- C3, witness: in the sample world the upload of `a.txt` with the form value
`objectName = dir/x.txt` is answered 201 and writes the one key `Base "dir/x.txt"`. -/
theorem C3_stored_key_is_base_name_witness :
    (uploadRequest "a.txt" "hello" "dir/x.txt").FormFile "file" = .ok (.ok "hello", ⟨"a.txt"⟩) ∧
    (uploadFileHandler sampleConfig sampleWorld freshWriter
      (uploadRequest "a.txt" "hello" "dir/x.txt")).w.status = 201 ∧
    storedKeys (uploadFileHandler sampleConfig sampleWorld freshWriter
      (uploadRequest "a.txt" "hello" "dir/x.txt")).trace =
      [if (uploadRequest "a.txt" "hello" "dir/x.txt").FormValue "objectName" ≠ "" then
          Base ((uploadRequest "a.txt" "hello" "dir/x.txt").FormValue "objectName")
        else Base (FileHeader.mk "a.txt").Filename] :=
  ⟨rfl, by decide,
    (C3_stored_key_is_base_name sampleConfig sampleWorld
      (uploadRequest "a.txt" "hello" "dir/x.txt") (.ok "hello") ⟨"a.txt"⟩ rfl).2 (by decide)⟩

/-- C3 as stated fails: with the non-empty form value `objectName = dir/x.txt` the key
written to the bucket is `x.txt`, not the form value. -/
theorem C3_counterexample :
    (uploadRequest "a.txt" "hello" "dir/x.txt").FormValue "objectName" = "dir/x.txt" ∧
    storedKeys (uploadFileHandler sampleConfig sampleWorld freshWriter
      (uploadRequest "a.txt" "hello" "dir/x.txt")).trace = ["x.txt"] ∧
    ∃ k ∈ storedKeys (uploadFileHandler sampleConfig sampleWorld freshWriter
      (uploadRequest "a.txt" "hello" "dir/x.txt")).trace,
      k ≠ (uploadRequest "a.txt" "hello" "dir/x.txt").FormValue "objectName" :=
  ⟨by decide, by decide, "x.txt", by decide, by decide⟩

/-- C4 at the failing input: the upload of `a.txt` with the form value
`objectName = dir/x.txt` is answered 201 with a body naming `dir/x.txt`, while the one key
written to the bucket is `x.txt`. -/
theorem C4_response_names_unsanitised_name :
    (uploadFileHandler sampleConfig sampleWorld freshWriter
      (uploadRequest "a.txt" "hello" "dir/x.txt")).w.status = 201 ∧
    (uploadFileHandler sampleConfig sampleWorld freshWriter
      (uploadRequest "a.txt" "hello" "dir/x.txt")).w.body =
      "\x7b\"object\":\"dir/x.txt\"\x7d\n" ∧
    storedKeys (uploadFileHandler sampleConfig sampleWorld freshWriter
      (uploadRequest "a.txt" "hello" "dir/x.txt")).trace = ["x.txt"] := by
  decide

/-! ## The endpoint (C10) -/

/-- C10 at the failing input: for the endpoint `s3.example.com:9000`, which has no scheme,
`url.Parse` reads `s3.example.com` as the scheme and finds no host, so the normalised
endpoint is empty and `minio.New` is called with the empty address, whatever the rest of
the world answers. -/
theorem C10_bare_host_port_endpoint_is_emptied (W : World)
    (accessKey secretKey bucketName objectName data : String) (useSSL : Bool) :
    cleanedEndpoint W.url "s3.example.com:9000" = "" ∧
    (UploadToIBMCOS W "s3.example.com:9000" accessKey secretKey bucketName objectName data
      useSSL).trace.head? = some (Event.minioNew "" accessKey secretKey useSSL) := by
  have hc : cleanedEndpoint W.url "s3.example.com:9000" = "" := rfl
  refine ⟨hc, ?_⟩
  rcases UploadToIBMCOS_shape W "s3.example.com:9000" accessKey secretKey bucketName objectName
    data useSSL with ⟨e, -, h⟩ | ⟨e, -, h⟩ | ⟨e, -, -, h⟩ | ⟨-, -, h⟩ | ⟨-, h⟩ <;>
    rw [h, hc] <;> rfl

/-! ## The bucket check (C9) -/

/-- C9. In a call of `UploadToIBMCOS`: (1) every `PutObject` call comes after the
`BucketExists` call; (2) if the check fails the call returns an error and makes no
`MakeBucket` and no `PutObject` call; (3) if the check ran and reported the bucket absent,
`MakeBucket` is called with the default options, it comes before every `PutObject` call,
and when it fails the call returns an error and makes no `PutObject` call; (4) if the
check reports the bucket present, `MakeBucket` is not called. -/
theorem C9_bucket_check_before_write (W : World)
    (endpoint accessKey secretKey bucketName objectName data : String) (useSSL : Bool) :
    (∀ pre post ev,
      (UploadToIBMCOS W endpoint accessKey secretKey bucketName objectName data useSSL).trace =
        pre ++ ev :: post → ev.isPutObject = true → Event.bucketExists bucketName ∈ pre) ∧
    (∀ e, W.bucketExists bucketName = .error e →
      (UploadToIBMCOS W endpoint accessKey secretKey bucketName objectName data useSSL).err ≠ none ∧
      ∀ ev ∈ (UploadToIBMCOS W endpoint accessKey secretKey bucketName objectName data
        useSSL).trace, ev.isMakeBucket = false ∧ ev.isPutObject = false) ∧
    (Event.bucketExists bucketName ∈
        (UploadToIBMCOS W endpoint accessKey secretKey bucketName objectName data useSSL).trace →
      W.bucketExists bucketName = .ok false →
      Event.makeBucket bucketName {} ∈
        (UploadToIBMCOS W endpoint accessKey secretKey bucketName objectName data useSSL).trace ∧
      (∀ pre post ev,
        (UploadToIBMCOS W endpoint accessKey secretKey bucketName objectName data useSSL).trace =
          pre ++ ev :: post → ev.isPutObject = true → Event.makeBucket bucketName {} ∈ pre) ∧
      (∀ e, W.makeBucket bucketName {} = some e →
        (UploadToIBMCOS W endpoint accessKey secretKey bucketName objectName data useSSL).err =
          some ("create bucket: " ++ e) ∧
        ∀ ev ∈ (UploadToIBMCOS W endpoint accessKey secretKey bucketName objectName data
          useSSL).trace, ev.isPutObject = false)) ∧
    (W.bucketExists bucketName = .ok true →
      ∀ ev ∈ (UploadToIBMCOS W endpoint accessKey secretKey bucketName objectName data
        useSSL).trace, ev.isMakeBucket = false) := by
  have key : ∀ (l : List Event) (x : Event), (∀ e ∈ l, e.isPutObject = false) →
      ∀ pre post ev, l ++ [x] = pre ++ ev :: post → ev.isPutObject = true → pre = l :=
    fun l x hl pre post ev h hev => split_at_last Event.isPutObject l x hl pre post ev h hev
  have nosplit : ∀ (l : List Event), (∀ e ∈ l, e.isPutObject = false) →
      ∀ pre post ev, l = pre ++ ev :: post → ev.isPutObject = true → False := by
    intro l hl pre post ev h hev
    have : ev ∈ l := by rw [h]; simp
    rw [hl ev this] at hev
    exact absurd hev (by simp)
  rcases UploadToIBMCOS_shape W endpoint accessKey secretKey bucketName objectName data useSSL
    with ⟨e, hn, h⟩ | ⟨e, hx, h⟩ | ⟨e, hx, hmk, h⟩ | ⟨hx, hmk, h⟩ | ⟨hx, h⟩ <;> rw [h]
  · refine ⟨?_, ?_, ?_, ?_⟩
    · intro pre post ev hs hev
      exact (nosplit _ (by simp [Event.isPutObject]) pre post ev hs hev).elim
    · intro e' _
      simp [Event.isMakeBucket, Event.isPutObject]
    · intro hmem
      simp at hmem
    · intro _
      simp [Event.isMakeBucket]
  · refine ⟨?_, ?_, ?_, ?_⟩
    · intro pre post ev hs hev
      exact (nosplit _ (by simp [Event.isPutObject]) pre post ev hs hev).elim
    · intro e' _
      simp [Event.isMakeBucket, Event.isPutObject]
    · intro _ hf
      rw [hx] at hf
      cases hf
    · intro _
      simp [Event.isMakeBucket]
  · refine ⟨?_, ?_, ?_, ?_⟩
    · intro pre post ev hs hev
      exact (nosplit _ (by simp [Event.isPutObject]) pre post ev hs hev).elim
    · intro e' he'
      rw [hx] at he'
      cases he'
    · intro _ _
      refine ⟨by simp, ?_, ?_⟩
      · intro pre post ev hs hev
        exact (nosplit _ (by simp [Event.isPutObject]) pre post ev hs hev).elim
      · intro e' he'
        rw [hmk] at he'
        cases he'
        simp [Event.isPutObject]
    · intro ht
      rw [hx] at ht
      cases ht
  · refine ⟨?_, ?_, ?_, ?_⟩
    · intro pre post ev hs hev
      have := key [Event.minioNew (cleanedEndpoint W.url endpoint) accessKey secretKey useSSL,
        Event.bucketExists bucketName, Event.makeBucket bucketName {}] _
        (by simp [Event.isPutObject]) pre post ev hs hev
      rw [this]; simp
    · intro e' he'
      rw [hx] at he'
      cases he'
    · intro _ _
      refine ⟨by simp, ?_, ?_⟩
      · intro pre post ev hs hev
        have := key [Event.minioNew (cleanedEndpoint W.url endpoint) accessKey secretKey useSSL,
          Event.bucketExists bucketName, Event.makeBucket bucketName {}] _
          (by simp [Event.isPutObject]) pre post ev hs hev
        rw [this]; simp
      · intro e' he'
        rw [hmk] at he'
        cases he'
    · intro ht
      rw [hx] at ht
      cases ht
  · refine ⟨?_, ?_, ?_, ?_⟩
    · intro pre post ev hs hev
      have := key [Event.minioNew (cleanedEndpoint W.url endpoint) accessKey secretKey useSSL,
        Event.bucketExists bucketName] _
        (by simp [Event.isPutObject]) pre post ev hs hev
      rw [this]; simp
    · intro e' he'
      rw [hx] at he'
      cases he'
    · intro _ hf
      rw [hx] at hf
      cases hf
    · intro _
      simp [Event.isMakeBucket]

/-- C9, witness: a failed check ends the call with an error; an absent bucket is created;
a failed creation ends the call with an error; a present bucket is not created. -/
theorem C9_bucket_check_before_write_witness :
    (deniedWorld.bucketExists "bucket" = .error "access denied" ∧
      (UploadToIBMCOS deniedWorld "https://s3.example.com" "ak" "sk" "bucket" "a.txt" "hello"
        true).err ≠ none) ∧
    (absentWorld.bucketExists "bucket" = .ok false ∧
      Event.makeBucket "bucket" {} ∈
        (UploadToIBMCOS absentWorld "https://s3.example.com" "ak" "sk" "bucket" "a.txt" "hello"
          true).trace) ∧
    (noCreateWorld.makeBucket "bucket" {} = some "quota" ∧
      (UploadToIBMCOS noCreateWorld "https://s3.example.com" "ak" "sk" "bucket" "a.txt" "hello"
        true).err = some ("create bucket: " ++ "quota")) ∧
    (sampleWorld.bucketExists "bucket" = .ok true ∧
      ∀ ev ∈ (UploadToIBMCOS sampleWorld "https://s3.example.com" "ak" "sk" "bucket" "a.txt"
        "hello" true).trace, ev.isMakeBucket = false) :=
  ⟨⟨rfl, ((C9_bucket_check_before_write deniedWorld "https://s3.example.com" "ak" "sk" "bucket"
      "a.txt" "hello" true).2.1 "access denied" rfl).1⟩,
    ⟨rfl, ((C9_bucket_check_before_write absentWorld "https://s3.example.com" "ak" "sk" "bucket"
      "a.txt" "hello" true).2.2.1 (by decide) rfl).1⟩,
    ⟨rfl, (((C9_bucket_check_before_write noCreateWorld "https://s3.example.com" "ak" "sk"
      "bucket" "a.txt" "hello" true).2.2.1 (by decide) rfl).2.2 "quota" rfl).1⟩,
    ⟨rfl, (C9_bucket_check_before_write sampleWorld "https://s3.example.com" "ak" "sk" "bucket"
      "a.txt" "hello" true).2.2.2 rfl⟩⟩

/-! ## The document store (C8, C1, C2) -/

/-- The ways a call of `SaveJSONToCloudant` can run: either no request is sent, or one
request is sent and the result follows from the answer to it. -/
theorem SaveJSONToCloudant_shape (W : World)
    (cloudantURL db username password jsonBytes : String) :
    (SaveJSONToCloudant W cloudantURL db username password jsonBytes).trace = [] ∨
    ∃ req,
      (∃ e, W.httpDo req = .error e ∧
        SaveJSONToCloudant W cloudantURL db username password jsonBytes =
          ⟨"", 0, some ("request failed: " ++ e), [Event.httpDo req]⟩) ∨
      (∃ s e, W.httpDo req = .ok ⟨s, .error e⟩ ∧
        SaveJSONToCloudant W cloudantURL db username password jsonBytes =
          ⟨"", s, some ("read response: " ++ e), [Event.httpDo req]⟩) ∨
      (∃ s b, W.httpDo req = .ok ⟨s, .ok b⟩ ∧ s ≥ 300 ∧
        SaveJSONToCloudant W cloudantURL db username password jsonBytes =
          ⟨b, s, some ("cloudant returned status " ++ toString s), [Event.httpDo req]⟩) ∨
      (∃ s b, W.httpDo req = .ok ⟨s, .ok b⟩ ∧ s < 300 ∧
        SaveJSONToCloudant W cloudantURL db username password jsonBytes =
          ⟨b, s, none, [Event.httpDo req]⟩) := by
  unfold SaveJSONToCloudant
  cases hp : Parse W.url (trimRightSlash cloudantURL ++ "/" ++ db) with
  | error e => exact Or.inl rfl
  | ok u =>
    simp only []
    cases hn : W.newRequest "POST" (W.url.urlString u) jsonBytes with
    | some e => exact Or.inl rfl
    | none =>
      simp only []
      right
      refine ⟨⟨"POST", W.url.urlString u,
        if username != "" then
          [("Content-Type", "application/json")] ++
            [("Authorization", "Basic " ++ W.base64 (username ++ ":" ++ password))]
        else [("Content-Type", "application/json")], jsonBytes⟩, ?_⟩
      cases hd : W.httpDo ⟨"POST", W.url.urlString u,
        if username != "" then
          [("Content-Type", "application/json")] ++
            [("Authorization", "Basic " ++ W.base64 (username ++ ":" ++ password))]
        else [("Content-Type", "application/json")], jsonBytes⟩ with
      | error e => exact Or.inl ⟨e, rfl, rfl⟩
      | ok resp =>
        right
        obtain ⟨s, rb⟩ := resp
        cases rb with
        | error e => exact Or.inl ⟨s, e, rfl, rfl⟩
        | ok b =>
          right
          by_cases hs : s ≥ 300
          · exact Or.inl ⟨s, b, rfl, hs, by simp [hs]⟩
          · exact Or.inr ⟨s, b, rfl, lt_of_not_ge hs, by simp [hs]⟩

/-- The result of `SaveJSONToCloudant` when the request it sent was answered with a status
code and a fully read body. -/
theorem SaveJSONToCloudant_answered (W : World)
    (cloudantURL db username password jsonBytes : String) (req : OutRequest) (s : Int)
    (b : String)
    (hsent : Event.httpDo req ∈
      (SaveJSONToCloudant W cloudantURL db username password jsonBytes).trace)
    (hans : W.httpDo req = .ok ⟨s, .ok b⟩) :
    SaveJSONToCloudant W cloudantURL db username password jsonBytes =
      ⟨b, s, if s ≥ 300 then some ("cloudant returned status " ++ toString s) else none,
        [Event.httpDo req]⟩ := by
  rcases SaveJSONToCloudant_shape W cloudantURL db username password jsonBytes with
    h0 | ⟨req0, ⟨e, hd0, hr⟩ | ⟨s0, e, hd0, hr⟩ | ⟨s0, b0, hd0, hs0, hr⟩ | ⟨s0, b0, hd0, hs0, hr⟩⟩
  · rw [h0] at hsent
    simp at hsent
  all_goals
    rw [hr] at hsent
    simp at hsent
    subst hsent
    rw [hd0] at hans
    simp at hans
  · obtain ⟨rfl, rfl⟩ := hans
    rw [hr]
    simp [hs0]
  · obtain ⟨rfl, rfl⟩ := hans
    rw [hr]
    simp [not_le.2 hs0]

/-- The result of `SaveJSONToCloudant` when the request it sent failed in transport. -/
theorem SaveJSONToCloudant_failed (W : World)
    (cloudantURL db username password jsonBytes : String) (req : OutRequest) (e : String)
    (hsent : Event.httpDo req ∈
      (SaveJSONToCloudant W cloudantURL db username password jsonBytes).trace)
    (hans : W.httpDo req = .error e) :
    SaveJSONToCloudant W cloudantURL db username password jsonBytes =
      ⟨"", 0, some ("request failed: " ++ e), [Event.httpDo req]⟩ := by
  rcases SaveJSONToCloudant_shape W cloudantURL db username password jsonBytes with
    h0 | ⟨req0, ⟨e0, hd0, hr⟩ | ⟨s0, e0, hd0, hr⟩ | ⟨s0, b0, hd0, hs0, hr⟩ | ⟨s0, b0, hd0, hs0, hr⟩⟩
  · rw [h0] at hsent
    simp at hsent
  all_goals
    rw [hr] at hsent
    simp at hsent
    subst hsent
    rw [hd0] at hans
    simp at hans
  subst hans
  exact hr

/-- C8. When the document store answers the request of `SaveJSONToCloudant` with status
code `s` and fully read body `b`, the call returns the body `b` and the status `s`, it
returns an error exactly when `s >= 300`, and that error reads
`cloudant returned status <s>`. -/
theorem C8_save_returns_body_status_and_error (W : World)
    (cloudantURL db username password jsonBytes : String) (s : Int) (b : String)
    (h : ∃ req, Event.httpDo req ∈
        (SaveJSONToCloudant W cloudantURL db username password jsonBytes).trace ∧
      W.httpDo req = .ok ⟨s, .ok b⟩) :
    (SaveJSONToCloudant W cloudantURL db username password jsonBytes).body = b ∧
    (SaveJSONToCloudant W cloudantURL db username password jsonBytes).status = s ∧
    ((SaveJSONToCloudant W cloudantURL db username password jsonBytes).err ≠ none ↔ s ≥ 300) ∧
    (s ≥ 300 → (SaveJSONToCloudant W cloudantURL db username password jsonBytes).err =
      some ("cloudant returned status " ++ toString s)) := by
  obtain ⟨req, hsent, hans⟩ := h
  rw [SaveJSONToCloudant_answered W cloudantURL db username password jsonBytes req s b hsent hans]
  refine ⟨rfl, rfl, ?_, ?_⟩
  · by_cases hs : s ≥ 300 <;> simp [hs]
  · intro hs
    simp [hs]

/-- C8, witness: a store answering `409` with a body gives that body, `409` and the error
`cloudant returned status 409`. -/
theorem C8_save_returns_body_status_and_error_witness :
    (SaveJSONToCloudant conflictWorld "https://account.cloudant.com/" "db" "" "" "doc").body =
      "\x7b\"error\":\"conflict\"\x7d" ∧
    (SaveJSONToCloudant conflictWorld "https://account.cloudant.com/" "db" "" "" "doc").status =
      409 ∧
    (SaveJSONToCloudant conflictWorld "https://account.cloudant.com/" "db" "" "" "doc").err =
      some ("cloudant returned status " ++ toString (409 : Int)) :=
  have h := C8_save_returns_body_status_and_error conflictWorld "https://account.cloudant.com/"
    "db" "" "" "doc" 409 "\x7b\"error\":\"conflict\"\x7d"
    ⟨⟨"POST", "https://account.cloudant.com/db", [("Content-Type", "application/json")], "doc"⟩,
      by decide, rfl⟩
  ⟨h.1, h.2.1, h.2.2.2 (by decide)⟩

/-- The handler `saveJSONHandler` on a POST with the configuration present and a readable
body: the outcome of `SaveJSONToCloudant` decides the response. -/
theorem saveJSONHandler_post (cfg : Config) (W : World) (w : ResponseWriter) (r : Request)
    (body : String) (hm : r.Method = "POST") (hurl : cfg.cloudantURL ≠ "")
    (hdb : cfg.cloudantDB ≠ "") (hbody : r.Body = .ok body) :
    saveJSONHandler cfg W w r =
      match (SaveJSONToCloudant W cfg.cloudantURL cfg.cloudantDB cfg.cloudantUser
          cfg.cloudantPassword body).err with
      | some e =>
        ⟨Error w ("cloudant save failed: " ++ e) 500,
          [Event.readBody] ++ (SaveJSONToCloudant W cfg.cloudantURL cfg.cloudantDB
            cfg.cloudantUser cfg.cloudantPassword body).trace⟩
      | none =>
        ⟨(w.WriteHeader (SaveJSONToCloudant W cfg.cloudantURL cfg.cloudantDB cfg.cloudantUser
            cfg.cloudantPassword body).status).Write
            (SaveJSONToCloudant W cfg.cloudantURL cfg.cloudantDB cfg.cloudantUser
              cfg.cloudantPassword body).body,
          [Event.readBody] ++ (SaveJSONToCloudant W cfg.cloudantURL cfg.cloudantDB
            cfg.cloudantUser cfg.cloudantPassword body).trace⟩ := by
  have hne : ("POST" != "POST") = false := by decide
  unfold saveJSONHandler
  simp only [hm, hne, hbody, Bool.false_eq_true, if_false]
  simp [hurl, hdb]

/-- The request sent by `saveJSONHandler` is the one sent by `SaveJSONToCloudant`. -/
theorem saveJSONHandler_sent (cfg : Config) (W : World) (w : ResponseWriter) (r : Request)
    (body : String) (req : OutRequest) (hm : r.Method = "POST") (hurl : cfg.cloudantURL ≠ "")
    (hdb : cfg.cloudantDB ≠ "") (hbody : r.Body = .ok body)
    (hsent : Event.httpDo req ∈ (saveJSONHandler cfg W w r).trace) :
    Event.httpDo req ∈ (SaveJSONToCloudant W cfg.cloudantURL cfg.cloudantDB cfg.cloudantUser
      cfg.cloudantPassword body).trace := by
  rw [saveJSONHandler_post cfg W w r body hm hurl hdb hbody] at hsent
  cases herr : (SaveJSONToCloudant W cfg.cloudantURL cfg.cloudantDB cfg.cloudantUser
      cfg.cloudantPassword body).err <;> rw [herr] at hsent <;> simpa using hsent

/-- C1. For a POST to `/save-json` with the configuration present and a readable body, if
the document store answers the forwarded request with a status code `s < 300` and body
`b`, the response of `saveJSONHandler` has status `s`, body `b` and nothing else. -/
theorem C1_success_is_relayed_verbatim (cfg : Config) (W : World) (r : Request)
    (body : String) (s : Int) (b : String)
    (hm : r.Method = "POST") (hurl : cfg.cloudantURL ≠ "") (hdb : cfg.cloudantDB ≠ "")
    (hbody : r.Body = .ok body)
    (hans : ∃ req, Event.httpDo req ∈ (saveJSONHandler cfg W freshWriter r).trace ∧
      W.httpDo req = .ok ⟨s, .ok b⟩)
    (hs : s < 300) :
    (saveJSONHandler cfg W freshWriter r).w = ⟨[], true, s, b⟩ := by
  obtain ⟨req, hsent, hreq⟩ := hans
  have hsaved := SaveJSONToCloudant_answered W cfg.cloudantURL cfg.cloudantDB cfg.cloudantUser
    cfg.cloudantPassword body req s b
    (saveJSONHandler_sent cfg W freshWriter r body req hm hurl hdb hbody hsent) hreq
  rw [saveJSONHandler_post cfg W freshWriter r body hm hurl hdb hbody, hsaved]
  simp [not_le.2 hs, freshWriter, ResponseWriter.Write, ResponseWriter.WriteHeader]

/-- C1, witness: the store of the sample world answers `201` with a body, and the handler
relays both. -/
theorem C1_success_is_relayed_verbatim_witness :
    (saveJSONHandler sampleConfig sampleWorld freshWriter (jsonRequest "\x7b\"x\":1\x7d")).w =
      ⟨[], true, 201, "\x7b\"id\":\"doc1\",\"ok\":true\x7d"⟩ :=
  C1_success_is_relayed_verbatim sampleConfig sampleWorld (jsonRequest "\x7b\"x\":1\x7d")
    "\x7b\"x\":1\x7d" 201 "\x7b\"id\":\"doc1\",\"ok\":true\x7d" rfl (by decide) (by decide) rfl
    ⟨⟨"POST", "https://account.cloudant.com/db",
        [("Content-Type", "application/json"), ("Authorization", "Basic user:pw")],
        "\x7b\"x\":1\x7d"⟩, by decide, rfl⟩
    (by decide)

/-- C2. For a POST to `/save-json` with the configuration present and a readable body, if
the document store answers the forwarded request with a status code `s >= 300` (reason
`cloudant returned status <s>`) or the request fails in transport with error `e` (reason
`request failed: <e>`), the response of `saveJSONHandler` is a plain-text 500 whose body
is `cloudant save failed: ` followed by the reason and a newline; neither the status code
nor the body of the store's answer is written. -/
theorem C2_failure_is_answered_500 (cfg : Config) (W : World) (r : Request)
    (body reason : String)
    (hm : r.Method = "POST") (hurl : cfg.cloudantURL ≠ "") (hdb : cfg.cloudantDB ≠ "")
    (hbody : r.Body = .ok body)
    (hans : ∃ req, Event.httpDo req ∈ (saveJSONHandler cfg W freshWriter r).trace ∧
      ((∃ s b, W.httpDo req = .ok ⟨s, .ok b⟩ ∧ s ≥ 300 ∧
          reason = "cloudant returned status " ++ toString s) ∨
        (∃ e, W.httpDo req = .error e ∧ reason = "request failed: " ++ e))) :
    (saveJSONHandler cfg W freshWriter r).w =
      ⟨[("Content-Type", "text/plain; charset=utf-8"), ("X-Content-Type-Options", "nosniff")],
        true, 500, "cloudant save failed: " ++ reason ++ "\n"⟩ := by
  obtain ⟨req, hsent, hreq⟩ := hans
  have hsent' := saveJSONHandler_sent cfg W freshWriter r body req hm hurl hdb hbody hsent
  have hw : ∀ msg : String, Error freshWriter msg 500 =
      ⟨[("Content-Type", "text/plain; charset=utf-8"), ("X-Content-Type-Options", "nosniff")],
        true, 500, msg ++ "\n"⟩ := by
    intro msg
    simp [Error, freshWriter, ResponseWriter.Write, ResponseWriter.WriteHeader,
      ResponseWriter.Set, ResponseWriter.Del]
  rcases hreq with ⟨s, b, hreq, hs, rfl⟩ | ⟨e, hreq, rfl⟩
  · have hsaved := SaveJSONToCloudant_answered W cfg.cloudantURL cfg.cloudantDB
      cfg.cloudantUser cfg.cloudantPassword body req s b hsent' hreq
    rw [saveJSONHandler_post cfg W freshWriter r body hm hurl hdb hbody, hsaved]
    simp [hs, hw]
  · have hsaved := SaveJSONToCloudant_failed W cfg.cloudantURL cfg.cloudantDB
      cfg.cloudantUser cfg.cloudantPassword body req e hsent' hreq
    rw [saveJSONHandler_post cfg W freshWriter r body hm hurl hdb hbody, hsaved]
    simp [hw]

/-- C2, witness: the store answers `409` with a body, and the handler answers 500 with the
text `cloudant save failed: cloudant returned status 409`. -/
theorem C2_failure_is_answered_500_witness :
    (saveJSONHandler sampleConfig conflictWorld freshWriter (jsonRequest "\x7b\"x\":1\x7d")).w =
      ⟨[("Content-Type", "text/plain; charset=utf-8"), ("X-Content-Type-Options", "nosniff")],
        true, 500,
        "cloudant save failed: " ++ ("cloudant returned status " ++ toString (409 : Int)) ++ "\n"⟩ :=
  C2_failure_is_answered_500 sampleConfig conflictWorld (jsonRequest "\x7b\"x\":1\x7d")
    "\x7b\"x\":1\x7d" ("cloudant returned status " ++ toString (409 : Int))
    rfl (by decide) (by decide) rfl
    ⟨⟨"POST", "https://account.cloudant.com/db",
        [("Content-Type", "application/json"), ("Authorization", "Basic user:pw")],
        "\x7b\"x\":1\x7d"⟩, by decide,
      Or.inl ⟨409, "\x7b\"error\":\"conflict\"\x7d", rfl, by decide, rfl⟩⟩

/-! ## Method and configuration guards (C6, C7) -/

/-- C6. For a request whose method is not POST, `uploadFileHandler` and `saveJSONHandler`
both answer 405 with the text `method not allowed`, whatever the configuration, the world
and the rest of the request are, and make no call at all: no multipart parse, no body
read, no outbound call. -/
theorem C6_non_post_is_405 (cfg : Config) (W : World) (r : Request) (hm : r.Method ≠ "POST") :
    ((uploadFileHandler cfg W freshWriter r).w.status = 405 ∧
      (uploadFileHandler cfg W freshWriter r).w.body = "method not allowed\n" ∧
      (uploadFileHandler cfg W freshWriter r).trace = []) ∧
    ((saveJSONHandler cfg W freshWriter r).w.status = 405 ∧
      (saveJSONHandler cfg W freshWriter r).w.body = "method not allowed\n" ∧
      (saveJSONHandler cfg W freshWriter r).trace = []) := by
  have hne : (r.Method != "POST") = true := by simpa using hm
  have hu : uploadFileHandler cfg W freshWriter r =
      ⟨Error freshWriter "method not allowed" 405, []⟩ := by
    unfold uploadFileHandler
    simp only [hne, if_true]
  have hs : saveJSONHandler cfg W freshWriter r =
      ⟨Error freshWriter "method not allowed" 405, []⟩ := by
    unfold saveJSONHandler
    simp only [hne, if_true]
  rw [hu, hs]
  exact ⟨⟨rfl, by decide, rfl⟩, ⟨rfl, by decide, rfl⟩⟩

/-- C6, witness: a GET is answered 405 by both handlers. -/
theorem C6_non_post_is_405_witness :
    (uploadFileHandler sampleConfig sampleWorld freshWriter
        { jsonRequest "" with Method := "GET" }).w.status = 405 ∧
    (saveJSONHandler sampleConfig sampleWorld freshWriter
        { jsonRequest "" with Method := "GET" }).w.status = 405 :=
  ⟨(C6_non_post_is_405 sampleConfig sampleWorld { jsonRequest "" with Method := "GET" }
      (by decide)).1.1,
    (C6_non_post_is_405 sampleConfig sampleWorld { jsonRequest "" with Method := "GET" }
      (by decide)).2.1⟩

/-- C7. For a POST: if the endpoint, the access key, the secret key or the bucket is empty,
`uploadFileHandler` answers 500 (`COS configuration not set`) and makes no call, so no
multipart parse and no storage call; if the base URL or the database name is empty,
`saveJSONHandler` answers 500 (`Cloudant configuration not set`) and makes no call, so no
body read and no document-store call. -/
theorem C7_missing_configuration_is_500 (cfg : Config) (W : World) (r : Request)
    (hm : r.Method = "POST") :
    ((cfg.cosEndpoint = "" ∨ cfg.cosAccessKey = "" ∨ cfg.cosSecretKey = "" ∨ cfg.cosBucket = "") →
      (uploadFileHandler cfg W freshWriter r).w.status = 500 ∧
      (uploadFileHandler cfg W freshWriter r).w.body = "COS configuration not set\n" ∧
      (uploadFileHandler cfg W freshWriter r).trace = []) ∧
    ((cfg.cloudantURL = "" ∨ cfg.cloudantDB = "") →
      (saveJSONHandler cfg W freshWriter r).w.status = 500 ∧
      (saveJSONHandler cfg W freshWriter r).w.body = "Cloudant configuration not set\n" ∧
      (saveJSONHandler cfg W freshWriter r).trace = []) := by
  have hne : ("POST" != "POST") = false := by decide
  constructor
  · intro hc
    have hc' : (cfg.cosEndpoint == "" || cfg.cosAccessKey == "" || cfg.cosSecretKey == ""
        || cfg.cosBucket == "") = true := by
      simpa [or_assoc] using hc
    have hu : uploadFileHandler cfg W freshWriter r =
        ⟨Error freshWriter "COS configuration not set" 500, []⟩ := by
      unfold uploadFileHandler
      simp only [hm, hne, hc', Bool.false_eq_true, if_false, if_true]
    rw [hu]
    exact ⟨rfl, by decide, rfl⟩
  · intro hc
    have hc' : (cfg.cloudantURL == "" || cfg.cloudantDB == "") = true := by
      simpa using hc
    have hs : saveJSONHandler cfg W freshWriter r =
        ⟨Error freshWriter "Cloudant configuration not set" 500, []⟩ := by
      unfold saveJSONHandler
      simp only [hm, hne, hc', Bool.false_eq_true, if_false, if_true]
    rw [hs]
    exact ⟨rfl, by decide, rfl⟩

/-- C7, witness: with an empty bucket name and an empty database name both handlers answer
a POST with 500 and make no call. -/
theorem C7_missing_configuration_is_500_witness :
    ((uploadFileHandler { sampleConfig with cosBucket := "", cloudantDB := "" } sampleWorld
        freshWriter (uploadRequest "a.txt" "hello" "")).w.status = 500 ∧
      (uploadFileHandler { sampleConfig with cosBucket := "", cloudantDB := "" } sampleWorld
        freshWriter (uploadRequest "a.txt" "hello" "")).trace = []) ∧
    ((saveJSONHandler { sampleConfig with cosBucket := "", cloudantDB := "" } sampleWorld
        freshWriter (uploadRequest "a.txt" "hello" "")).w.status = 500 ∧
      (saveJSONHandler { sampleConfig with cosBucket := "", cloudantDB := "" } sampleWorld
        freshWriter (uploadRequest "a.txt" "hello" "")).trace = []) :=
  have h := C7_missing_configuration_is_500
    { sampleConfig with cosBucket := "", cloudantDB := "" } sampleWorld
    (uploadRequest "a.txt" "hello" "") rfl
  ⟨⟨(h.1 (Or.inr (Or.inr (Or.inr rfl)))).1, (h.1 (Or.inr (Or.inr (Or.inr rfl)))).2.2⟩,
    ⟨(h.2 (Or.inr rfl)).1, (h.2 (Or.inr rfl)).2.2⟩⟩

end GoServer
